import Mathlib

/-!
Verification of the ai-sql-analytics service and dashboard.

The development shallowly embeds the four source files of the repository:
`schemas.py` (the request and response message shapes), `ask.py` (the
query service `ask_database`), `main.py` (the HTTP routes) and
`dashboard.py` (the Streamlit UI logic).  External effects (the language
model call and the database execution) are passed in as explicit oracles,
so every function here is a total, executable Lean definition mirroring
the Python control flow.  Machine-level details that the claims do not
touch (floating point row values, real HTTP transport) stay outside the
value universe.
-/

set_option maxHeartbeats 4000000

namespace AiSql

/-! ## Row values

A scalar cell of a SQLite result row, as Python sees it after
`dict(row._mapping)`: `None`, an `int`, or a `str`.  (REAL and BLOB
columns fall outside the modelled value universe; none of the claims
depend on them.) -/

/-- A scalar value in a result row. -/
inductive SqlVal where
  | vnull : SqlVal
  | vint (n : Int) : SqlVal
  | vstr (s : String) : SqlVal
deriving DecidableEq

/-- A result row, i.e. one `dict(row._mapping)`: an insertion-ordered
association list from column name to value (keys are distinct in an
actual Python dict; theorems assume `Nodup` where it matters). -/
abbrev SqlRow := List (String × SqlVal)

/-! ## The JSON text produced by the service

`ask.py` returns `json.dumps(formatted, indent=2)` where `formatted` is a
list of row dicts.  The printer below reproduces that text exactly:
`ensure_ascii` escaping inside strings (short escapes for the named
control characters, lowercase `\uXXXX` for other control and all
non-ASCII characters, surrogate pairs above `0xFFFF`), and the
`indent=2` layout with `": "` as the key separator and `",\n"` plus
indentation between items. -/

/-- Four lowercase hex digits of `n % 0x10000`, as `"%04x"` prints them. -/
def hexQuad (n : Nat) : List Char :=
  [Nat.digitChar (n / 4096 % 16), Nat.digitChar (n / 256 % 16),
   Nat.digitChar (n / 16 % 16), Nat.digitChar (n % 16)]

/-- JSON escaping of one character, exactly as the `json` module with
`ensure_ascii=True` emits it. -/
def escChar (c : Char) : List Char :=
  if c = '"' then ['\\', '"']
  else if c = '\\' then ['\\', '\\']
  else if c = '\x08' then ['\\', 'b']
  else if c = '\x0c' then ['\\', 'f']
  else if c = '\n' then ['\\', 'n']
  else if c = '\r' then ['\\', 'r']
  else if c = '\t' then ['\\', 't']
  else if c.toNat < 0x20 then '\\' :: 'u' :: hexQuad c.toNat
  else if c.toNat ≤ 0x7e then [c]
  else if c.toNat ≤ 0xffff then '\\' :: 'u' :: hexQuad c.toNat
  else
    ('\\' :: 'u' :: hexQuad (0xd800 + (c.toNat - 0x10000) / 0x400)) ++
    ('\\' :: 'u' :: hexQuad (0xdc00 + (c.toNat - 0x10000) % 0x400))

/-- JSON escaping of a character sequence. -/
def escList : List Char → List Char
  | [] => []
  | c :: cs => escChar c ++ escList cs

/-- A JSON string literal: quote, escaped body, quote. -/
def quoteChars (s : String) : List Char :=
  '"' :: (escList s.data ++ ['"'])

/-- Decimal digit characters of a natural number, most significant
first, as Python prints an `int`. -/
def natDigits (n : Nat) : List Char :=
  if _h : n < 10 then [Nat.digitChar n]
  else natDigits (n / 10) ++ [Nat.digitChar (n % 10)]
decreasing_by exact Nat.div_lt_self (by omega) (by omega)

/-- An integer as JSON text: optional minus sign, then decimal digits. -/
def intChars (n : Int) : List Char :=
  if n < 0 then '-' :: natDigits n.natAbs else natDigits n.natAbs

/-- One scalar value as JSON text. -/
def valChars : SqlVal → List Char
  | .vnull => ['n', 'u', 'l', 'l']
  | .vint n => intChars n
  | .vstr s => quoteChars s

/-- One `"key": value` object member (`indent` mode uses `": "` as the
key separator). -/
def memberChars (k : String) (v : SqlVal) : List Char :=
  quoteChars k ++ ':' :: ' ' :: valChars v

/-- The members of a row object, separated by `",\n"` plus the
four-space indentation of depth 2 under `indent=2`. -/
def membersChars : SqlRow → List Char
  | [] => []
  | [(k, v)] => memberChars k v
  | (k, v) :: kv :: kvs =>
      memberChars k v ++ ',' :: '\n' :: ' ' :: ' ' :: ' ' :: ' ' ::
        membersChars (kv :: kvs)

/-- One row dict as a JSON object at depth 1 of the `indent=2` layout. -/
def rowChars (r : SqlRow) : List Char :=
  match r with
  | [] => ['{', '}']
  | _ =>
      '{' :: '\n' :: ' ' :: ' ' :: ' ' :: ' ' ::
        (membersChars r ++ '\n' :: ' ' :: ' ' :: ['}'])

/-- The row objects of the top-level array, separated by `",\n"` plus
the two-space indentation of depth 1. -/
def rowListChars : List SqlRow → List Char
  | [] => []
  | [r] => rowChars r
  | r :: r2 :: rs => rowChars r ++ ',' :: '\n' :: ' ' :: ' ' :: rowListChars (r2 :: rs)

/-- The characters of `json.dumps(rows, indent=2)` for a list of row
dicts. -/
def tableChars (rows : List SqlRow) : List Char :=
  match rows with
  | [] => ['[', ']']
  | _ => '[' :: '\n' :: ' ' :: ' ' :: (rowListChars rows ++ '\n' :: [']'])

/-- The Answer text `json.dumps(formatted, indent=2)` built by
`ask_database` from the fetched rows. -/
def dumpTable (rows : List SqlRow) : String :=
  ⟨tableChars rows⟩

/-! ## The JSON reader used by the dashboard

`dashboard.py` runs `json.loads` on the Answer text.  The reader below
models `json.loads` on the grammar the service emits: an array of
objects whose values are null, integer or string literals.  It is total
(fuel-indexed where the grammar repeats) and executable.  Divergences
from CPython outside the emitted grammar: a lone surrogate escape is
rejected rather than materialised (a Lean `Char` cannot hold one), and
floats and booleans are not part of the modelled value universe. -/

/-- JSON insignificant whitespace, as `json.loads` skips it. -/
def skipWs : List Char → List Char
  | c :: cs =>
      if c = ' ' ∨ c = '\t' ∨ c = '\n' ∨ c = '\r' then skipWs cs else c :: cs
  | [] => []

/-- The numeric value of one hex digit character. -/
def hexVal (c : Char) : Option Nat :=
  if '0' ≤ c ∧ c ≤ '9' then some (c.toNat - 48)
  else if 'a' ≤ c ∧ c ≤ 'f' then some (c.toNat - 87)
  else if 'A' ≤ c ∧ c ≤ 'F' then some (c.toNat - 55)
  else none

/-- Reads the body of a string literal after the opening quote,
undoing every escape form `json.loads` accepts, up to the closing
quote; returns the decoded characters and the remaining input.  Fuel
bounds the recursion (any fuel at least the input length suffices). -/
def readStr (fuel : Nat) (l : List Char) : Option (List Char × List Char) :=
  match fuel with
  | 0 => none
  | fuel + 1 =>
    match l with
    | '"' :: rest => some ([], rest)
    | '\\' :: '"' :: rest => (readStr fuel rest).map fun p => ('"' :: p.1, p.2)
    | '\\' :: '\\' :: rest => (readStr fuel rest).map fun p => ('\\' :: p.1, p.2)
    | '\\' :: '/' :: rest => (readStr fuel rest).map fun p => ('/' :: p.1, p.2)
    | '\\' :: 'b' :: rest => (readStr fuel rest).map fun p => ('\x08' :: p.1, p.2)
    | '\\' :: 'f' :: rest => (readStr fuel rest).map fun p => ('\x0c' :: p.1, p.2)
    | '\\' :: 'n' :: rest => (readStr fuel rest).map fun p => ('\n' :: p.1, p.2)
    | '\\' :: 'r' :: rest => (readStr fuel rest).map fun p => ('\r' :: p.1, p.2)
    | '\\' :: 't' :: rest => (readStr fuel rest).map fun p => ('\t' :: p.1, p.2)
    | '\\' :: 'u' :: a :: b :: c :: d :: rest =>
      match hexVal a, hexVal b, hexVal c, hexVal d with
      | some ha, some hb, some hc, some hd =>
        let v := ((ha * 16 + hb) * 16 + hc) * 16 + hd
        if 0xd800 ≤ v ∧ v ≤ 0xdbff then
          match rest with
          | '\\' :: 'u' :: e :: f :: g :: h :: rest2 =>
            match hexVal e, hexVal f, hexVal g, hexVal h with
            | some he, some hf, some hg, some hh =>
              let w := ((he * 16 + hf) * 16 + hg) * 16 + hh
              if 0xdc00 ≤ w ∧ w ≤ 0xdfff then
                (readStr fuel rest2).map fun p =>
                  (Char.ofNat (0x10000 + (v - 0xd800) * 0x400 + (w - 0xdc00)) :: p.1, p.2)
              else none
            | _, _, _, _ => none
          | _ => none
        else if 0xdc00 ≤ v ∧ v ≤ 0xdfff then none
        else (readStr fuel rest).map fun p => (Char.ofNat v :: p.1, p.2)
      | _, _, _, _ => none
    | '\\' :: _ => none
    | c :: rest =>
        if c.toNat < 0x20 then none
        else (readStr fuel rest).map fun p => (c :: p.1, p.2)
    | [] => none

/-- Reads a maximal run of decimal digits, accumulating their value. -/
def readDigits : List Char → Nat → Nat × List Char
  | c :: cs, acc =>
      if c.isDigit then readDigits cs (acc * 10 + (c.toNat - 48)) else (acc, c :: cs)
  | [], acc => (acc, [])

/-- Reads one scalar literal: `null`, an integer, or a string. -/
def readVal (fuel : Nat) (l : List Char) : Option (SqlVal × List Char) :=
  match l with
  | 'n' :: 'u' :: 'l' :: 'l' :: rest => some (.vnull, rest)
  | '"' :: rest => (readStr fuel rest).map fun p => (.vstr ⟨p.1⟩, p.2)
  | '-' :: c :: rest =>
      if c.isDigit then
        let p := readDigits (c :: rest) 0
        some (.vint (-(p.1 : Int)), p.2)
      else none
  | c :: rest =>
      if c.isDigit then
        let p := readDigits (c :: rest) 0
        some (.vint (p.1 : Int), p.2)
      else none
  | [] => none

/-- Reads the members of a nonempty object, positioned at the opening
quote of the first key; consumes through the closing brace. -/
def readMembers (fuel : Nat) (l : List Char) : Option (SqlRow × List Char) :=
  match fuel with
  | 0 => none
  | fuel + 1 =>
    match l with
    | c :: r =>
      if c = '"' then
        match readStr (r.length + 1) r with
        | none => none
        | some (k, r1) =>
          match skipWs r1 with
          | c1 :: r2 =>
            if c1 = ':' then
              match readVal ((skipWs r2).length + 1) (skipWs r2) with
              | none => none
              | some (v, r3) =>
                match skipWs r3 with
                | c2 :: r4 =>
                  if c2 = ',' then
                    (readMembers fuel (skipWs r4)).map fun p =>
                      ((⟨(k : List Char)⟩, v) :: p.1, p.2)
                  else if c2 = '}' then some ([(⟨(k : List Char)⟩, v)], r4)
                  else none
                | [] => none
            else none
          | [] => none
      else none
    | [] => none

/-- Reads one object (a row dict), positioned at the opening brace. -/
def readRow (fuel : Nat) (l : List Char) : Option (SqlRow × List Char) :=
  match l with
  | c :: r =>
    if c = '{' then
      match skipWs r with
      | c1 :: r1 => if c1 = '}' then some ([], r1) else readMembers fuel (c1 :: r1)
      | [] => none
    else none
  | [] => none

/-- Reads the elements of a nonempty array of objects, positioned at
the opening brace of the first element; consumes through the closing
bracket. -/
def readRowList (fuel : Nat) (l : List Char) : Option (List SqlRow × List Char) :=
  match fuel with
  | 0 => none
  | fuel + 1 =>
    match readRow fuel l with
    | none => none
    | some (r, r1) =>
      match skipWs r1 with
      | c :: r2 =>
          if c = ',' then (readRowList fuel (skipWs r2)).map fun p => (r :: p.1, p.2)
          else if c = ']' then some ([r], r2)
          else none
      | [] => none

/-- The model of `json.loads` on the grammar the service emits: a whole
document holding an array of row objects, with insignificant whitespace
allowed anywhere the RFC allows it and nothing but whitespace after the
closing bracket. -/
def parseTable (s : String) : Option (List SqlRow) :=
  match skipWs s.data with
  | c :: r =>
    if c = '[' then
      match skipWs r with
      | c1 :: r1 =>
        if c1 = ']' then (if (skipWs r1).isEmpty then some [] else none)
        else
          match readRowList ((c1 :: r1).length + 1) (c1 :: r1) with
          | some (rows, rest) => if (skipWs rest).isEmpty then some rows else none
          | none => none
      | [] => none
    else none
  | [] => none

/-! ## Round-trip of the codec

The service serialises with `dumpTable` and the dashboard deserialises
with `parseTable`; the lemmas below prove `parseTable (dumpTable rows) =
some rows`, which claims C3 and C4 build on. -/

/-- Reading back the hex digit character of `d < 16` recovers `d`. -/
theorem hexVal_digitChar (d : Nat) (h : d < 16) : hexVal (Nat.digitChar d) = some d := by
  interval_cases d <;> decide

/-- Every Lean scalar sits below the surrogate range or above it. -/
theorem char_toNat_valid (c : Char) :
    c.toNat < 0xd800 ∨ (0xdfff < c.toNat ∧ c.toNat < 0x110000) := c.valid

/-- Reading the four hex digits of `n < 0x10000` recovers `n`. -/
theorem readHexQuad (n : Nat) (h : n < 0x10000) :
    ∃ a b c d, hexQuad n = [a, b, c, d] ∧
      (∃ ha hb hc hd, hexVal a = some ha ∧ hexVal b = some hb ∧
        hexVal c = some hc ∧ hexVal d = some hd ∧
        ((ha * 16 + hb) * 16 + hc) * 16 + hd = n) := by
  refine ⟨_, _, _, _, rfl, n / 4096 % 16, n / 256 % 16, n / 16 % 16, n % 16,
    hexVal_digitChar _ (Nat.mod_lt _ (by omega)),
    hexVal_digitChar _ (Nat.mod_lt _ (by omega)),
    hexVal_digitChar _ (Nat.mod_lt _ (by omega)),
    hexVal_digitChar _ (Nat.mod_lt _ (by omega)), by omega⟩

/-- Reading one escaped character undoes `escChar` and costs one unit
of fuel. -/
theorem readStr_escChar (c : Char) (fuel : Nat) (l : List Char) :
    readStr (fuel + 1) (escChar c ++ l) =
      (readStr fuel l).map fun p => (c :: p.1, p.2) := by
  by_cases h1 : c = '"'
  · subst h1; rfl
  by_cases h2 : c = '\\'
  · subst h2; rfl
  by_cases h3 : c = '\x08'
  · subst h3; rfl
  by_cases h4 : c = '\x0c'
  · subst h4; rfl
  by_cases h5 : c = '\n'
  · subst h5; rfl
  by_cases h6 : c = '\r'
  · subst h6; rfl
  by_cases h7 : c = '\t'
  · subst h7; rfl
  by_cases h8 : c.toNat < 0x20
  · obtain ⟨a, b, c0, d, hq, ha, hb, hc, hd, hva, hvb, hvc, hvd, hsum⟩ :=
      readHexQuad c.toNat (by omega)
    have hesc : escChar c = '\\' :: 'u' :: [a, b, c0, d] := by
      simp only [escChar, if_neg h1, if_neg h2, if_neg h3, if_neg h4, if_neg h5,
        if_neg h6, if_neg h7, if_pos h8, hq]
    rw [hesc]
    simp only [List.cons_append, List.nil_append, List.append_nil, readStr,
      hva, hvb, hvc, hvd, hsum]
    rw [if_neg (by omega), if_neg (by omega), Char.ofNat_toNat]
  by_cases h9 : c.toNat ≤ 0x7e
  · have hesc : escChar c = [c] := by
      simp only [escChar, if_neg h1, if_neg h2, if_neg h3, if_neg h4, if_neg h5,
        if_neg h6, if_neg h7, if_neg h8, if_pos h9]
    rw [hesc]
    rw [readStr.eq_def]
    simp only [List.cons_append, List.nil_append]
    split
    all_goals try (rename_i heq; exact absurd (List.cons.inj heq).1 h1)
    all_goals try (rename_i heq; exact absurd (List.cons.inj heq).1 h2)
    all_goals try (rename_i heq; exact absurd heq (List.cons_ne_nil _ _))
    rename_i c2 l2 heq
    obtain ⟨hc2, hl2⟩ := List.cons.inj heq
    subst hc2
    subst hl2
    rw [if_neg (by omega)]
  by_cases h10 : c.toNat ≤ 0xffff
  · have hval := char_toNat_valid c
    obtain ⟨a, b, c0, d, hq, ha, hb, hc, hd, hva, hvb, hvc, hvd, hsum⟩ :=
      readHexQuad c.toNat (by omega)
    have hesc : escChar c = '\\' :: 'u' :: [a, b, c0, d] := by
      simp only [escChar, if_neg h1, if_neg h2, if_neg h3, if_neg h4, if_neg h5,
        if_neg h6, if_neg h7, if_neg h8, if_neg h9, if_pos h10, hq]
    rw [hesc]
    simp only [List.cons_append, List.nil_append, readStr, hva, hvb, hvc, hvd, hsum]
    rw [if_neg (by omega), if_neg (by omega), Char.ofNat_toNat]
  · have hval := char_toNat_valid c
    have hhi : 0xd800 + (c.toNat - 0x10000) / 0x400 < 0x10000 := by omega
    have hlo : 0xdc00 + (c.toNat - 0x10000) % 0x400 < 0x10000 := by
      have := Nat.mod_lt (c.toNat - 0x10000) (y := 0x400) (by omega)
      omega
    obtain ⟨a, b, c0, d, hq, ha, hb, hc, hd, hva, hvb, hvc, hvd, hsum⟩ := readHexQuad _ hhi
    obtain ⟨e, f, g, i, hq2, he, hf, hg, hi, hve, hvf, hvg, hvi, hsum2⟩ := readHexQuad _ hlo
    have hesc : escChar c =
        '\\' :: 'u' :: a :: b :: c0 :: d :: '\\' :: 'u' :: [e, f, g, i] := by
      simp only [escChar, if_neg h1, if_neg h2, if_neg h3, if_neg h4, if_neg h5,
        if_neg h6, if_neg h7, if_neg h8, if_neg h9, if_neg h10, hq, hq2]
      simp
    rw [hesc]
    have hmod := Nat.mod_lt (c.toNat - 0x10000) (y := 0x400) (by omega)
    simp only [List.cons_append, List.nil_append, readStr,
      hva, hvb, hvc, hvd, hve, hvf, hvg, hvi, hsum, hsum2]
    rw [if_pos (by omega), if_pos (by omega)]
    have harith : 0x10000 +
        (0xd800 + (c.toNat - 0x10000) / 0x400 - 0xd800) * 0x400 +
        (0xdc00 + (c.toNat - 0x10000) % 0x400 - 0xdc00) = c.toNat := by omega
    rw [harith, Char.ofNat_toNat]

/-- Reading an escaped character run stops exactly at the closing
quote and recovers the run, given fuel beyond the run length. -/
theorem readStr_escList (cs : List Char) : ∀ fuel : Nat, cs.length + 1 ≤ fuel →
    ∀ l : List Char, readStr fuel (escList cs ++ '"' :: l) = some (cs, l) := by
  induction cs with
  | nil =>
      intro fuel hf l
      cases fuel with
      | zero => omega
      | succ f => simp [escList, readStr]
  | cons c cs ih =>
      intro fuel hf l
      cases fuel with
      | zero => omega
      | succ f =>
          rw [escList, List.append_assoc, readStr_escChar,
            ih f (by simp at hf ⊢; omega) l]
          rfl

/-- Escaping never shortens a character run. -/
theorem escList_length (cs : List Char) : cs.length ≤ (escList cs).length := by
  induction cs with
  | nil => simp [escList]
  | cons c cs ih =>
      have hc : 1 ≤ (escChar c).length := by
        unfold escChar
        split_ifs <;> simp [hexQuad]
      rw [escList]
      simp only [List.length_append, List.length_cons]
      omega

/-- The digit character of `d < 10` is a digit carrying `d`. -/
theorem digitChar_facts (d : Nat) (h : d < 10) :
    (Nat.digitChar d).isDigit = true ∧ (Nat.digitChar d).toNat - 48 = d := by
  interval_cases d <;> exact ⟨by decide, by decide⟩

/-- A printed natural number is a nonempty digit run. -/
theorem natDigits_spec (n : Nat) :
    natDigits n ≠ [] ∧ ∀ c ∈ natDigits n, c.isDigit = true := by
  induction n using Nat.strongRecOn with
  | _ n ih =>
    rw [natDigits]
    by_cases h : n < 10
    · rw [dif_pos h]
      exact ⟨by simp, by simpa using (digitChar_facts n h).1⟩
    · rw [dif_neg h]
      refine ⟨by simp, ?_⟩
      intro c hc
      rw [List.mem_append] at hc
      rcases hc with hc | hc
      · exact (ih (n / 10) (Nat.div_lt_self (by omega) (by omega))).2 c hc
      · rw [List.mem_singleton] at hc
        subst hc
        exact (digitChar_facts _ (Nat.mod_lt _ (by omega))).1

/-- True when the input cannot extend a decimal digit run. -/
def noDigitHead : List Char → Bool
  | [] => true
  | c :: _ => !c.isDigit

/-- Reading a digit run consumes exactly the run and folds its value
onto the accumulator. -/
theorem readDigits_run (ds : List Char) (hds : ∀ c ∈ ds, c.isDigit = true) :
    ∀ (acc : Nat) (l : List Char), noDigitHead l = true →
      readDigits (ds ++ l) acc =
        (ds.foldl (fun a c => a * 10 + (c.toNat - 48)) acc, l) := by
  induction ds with
  | nil =>
      intro acc l hl
      cases l with
      | nil => rfl
      | cons c t =>
          simp only [noDigitHead, Bool.not_eq_true'] at hl
          simp [readDigits, hl]
  | cons c t ih =>
      intro acc l hl
      have hc : c.isDigit = true := hds c (by simp)
      simp only [List.cons_append, readDigits, hc, if_pos]
      exact ih (fun x hx => hds x (by simp [hx])) _ l hl

/-- Folding the printed digits of `n` onto an accumulator scales the
accumulator past them and adds `n`. -/
theorem foldl_natDigits (n : Nat) : ∀ acc : Nat,
    (natDigits n).foldl (fun a c => a * 10 + (c.toNat - 48)) acc =
      acc * 10 ^ (natDigits n).length + n := by
  induction n using Nat.strongRecOn with
  | _ n ih =>
    intro acc
    rw [natDigits]
    by_cases h : n < 10
    · rw [dif_pos h]
      simp only [List.foldl_cons, List.foldl_nil, List.length_singleton]
      rw [(digitChar_facts n h).2]
      ring
    · rw [dif_neg h]
      rw [List.foldl_append, ih (n / 10) (Nat.div_lt_self (by omega) (by omega))]
      simp only [List.foldl_cons, List.foldl_nil, List.length_append,
        List.length_singleton]
      rw [(digitChar_facts (n % 10) (Nat.mod_lt _ (by omega))).2, pow_succ, ← mul_assoc]
      generalize acc * 10 ^ (natDigits (n / 10)).length = m
      omega

/-- Reading the printed digits of `n` from accumulator zero yields `n`. -/
theorem readDigits_natDigits (n : Nat) (l : List Char) (hl : noDigitHead l = true) :
    readDigits (natDigits n ++ l) 0 = (n, l) := by
  rw [readDigits_run (natDigits n) (natDigits_spec n).2 0 l hl, foldl_natDigits]
  simp

/-- Reading one printed scalar value recovers it, when the remainder
cannot extend a digit run and the fuel covers the input. -/
theorem readVal_valChars (v : SqlVal) (l : List Char) (hl : noDigitHead l = true)
    (fuel : Nat) (hf : (valChars v ++ l).length ≤ fuel) :
    readVal fuel (valChars v ++ l) = some (v, l) := by
  cases v with
  | vnull => rfl
  | vstr s =>
      have hlen : s.data.length + 1 ≤ fuel := by
        have h1 := escList_length s.data
        simp only [valChars, quoteChars, List.length_append, List.length_cons] at hf
        omega
      show readVal fuel (('"' :: (escList s.data ++ ['"'])) ++ l) = _
      rw [List.cons_append, List.append_assoc]
      simp only [List.singleton_append, readVal]
      rw [readStr_escList s.data fuel hlen l]
      rfl
  | vint n =>
      obtain ⟨hne, hdig⟩ := natDigits_spec n.natAbs
      obtain ⟨c, t, hct⟩ : ∃ c t, natDigits n.natAbs = c :: t := by
        cases h : natDigits n.natAbs with
        | nil => exact absurd h hne
        | cons c t => exact ⟨c, t, rfl⟩
      have hcd : c.isDigit = true := hdig c (by rw [hct]; simp)
      by_cases hn : n < 0
      · show readVal fuel ((intChars n) ++ l) = _
        rw [intChars, if_pos hn, hct]
        simp only [List.cons_append, readVal, hcd, if_pos]
        rw [← List.cons_append, ← hct, readDigits_natDigits _ _ hl]
        have : -((n.natAbs : Nat) : Int) = n := by omega
        rw [this]
      · show readVal fuel ((intChars n) ++ l) = _
        rw [intChars, if_neg hn, hct]
        rw [readVal.eq_def]
        split
        all_goals try (rename_i heq; exact absurd heq (List.cons_ne_nil _ _))
        all_goals try (rename_i heq; rw [(List.cons.inj heq).1] at hcd; exact absurd hcd (by decide))
        rename_i heq
        obtain ⟨rfl, rfl⟩ := List.cons.inj heq
        rw [if_pos hcd]
        simp only [List.append_eq]
        rw [← List.cons_append, ← hct, readDigits_natDigits _ _ hl]
        have : ((n.natAbs : Nat) : Int) = n := by omega
        rw [this]

/-- A digit character is not JSON whitespace. -/
theorem digit_not_ws (c : Char) (h : c.isDigit = true) :
    ¬(c = ' ' ∨ c = '\t' ∨ c = '\n' ∨ c = '\r') := by
  rintro (rfl | rfl | rfl | rfl) <;> exact absurd h (by decide)

/-- A printed scalar never starts with whitespace. -/
theorem skipWs_valChars (v : SqlVal) (l : List Char) :
    skipWs (valChars v ++ l) = valChars v ++ l := by
  cases v with
  | vnull => simp [valChars, skipWs]
  | vstr s => simp [valChars, quoteChars, skipWs]
  | vint n =>
      obtain ⟨hne, hdig⟩ := natDigits_spec n.natAbs
      obtain ⟨c, t, hct⟩ : ∃ c t, natDigits n.natAbs = c :: t := by
        cases h : natDigits n.natAbs with
        | nil => exact absurd h hne
        | cons c t => exact ⟨c, t, rfl⟩
      have hcd : c.isDigit = true := hdig c (by rw [hct]; simp)
      show skipWs (intChars n ++ l) = intChars n ++ l
      rw [intChars]
      by_cases hn : n < 0
      · rw [if_pos hn]
        simp [skipWs]
      · rw [if_neg hn, hct]
        simp only [List.cons_append, skipWs]
        rw [if_neg (digit_not_ws c hcd)]
        simp

/-- The printed members of a nonempty row start with a double quote. -/
theorem membersChars_head (k : String) (v : SqlVal) (kvs : SqlRow) :
    ∃ t, membersChars ((k, v) :: kvs) = '"' :: t := by
  cases kvs with
  | nil => exact ⟨_, rfl⟩
  | cons kv2 kvs2 => exact ⟨_, rfl⟩

/-- Reading printed members consumes them through the object close of
the `indent=2` layout, recovering the member list. -/
theorem readMembers_membersChars (kvs : SqlRow) : kvs ≠ [] →
    ∀ fuel : Nat, kvs.length ≤ fuel → ∀ l : List Char,
      readMembers fuel (membersChars kvs ++ '\n' :: ' ' :: ' ' :: '}' :: l) =
        some (kvs, l) := by
  induction kvs with
  | nil => intro h; exact absurd rfl h
  | cons kv kvs ih =>
      obtain ⟨k, v⟩ := kv
      intro _ fuel hfuel l
      cases fuel with
      | zero => simp at hfuel
      | succ f =>
        cases kvs with
        | nil =>
            have hin : membersChars [(k, v)] ++ '\n' :: ' ' :: ' ' :: '}' :: l =
                '"' :: (escList k.data ++ '"' ::
                  (':' :: ' ' :: (valChars v ++ '\n' :: ' ' :: ' ' :: '}' :: l))) := by
              simp only [membersChars, memberChars, quoteChars, List.cons_append,
                List.append_assoc, List.singleton_append, List.nil_append]
            have h1 := readStr_escList k.data
              ((escList k.data ++ '"' ::
                (':' :: ' ' :: (valChars v ++ '\n' :: ' ' :: ' ' :: '}' :: l))).length + 1)
              (by simp only [List.length_append, List.length_cons]
                  have := escList_length k.data
                  omega)
              (':' :: ' ' :: (valChars v ++ '\n' :: ' ' :: ' ' :: '}' :: l))
            have h2 := skipWs_valChars v ('\n' :: ' ' :: ' ' :: '}' :: l)
            have hs2 : skipWs (' ' :: (valChars v ++ '\n' :: ' ' :: ' ' :: '}' :: l)) =
                valChars v ++ '\n' :: ' ' :: ' ' :: '}' :: l := by
              rw [skipWs, if_pos (by decide)]
              exact h2
            have h3 := readVal_valChars v ('\n' :: ' ' :: ' ' :: '}' :: l) (by rfl)
              ((valChars v ++ '\n' :: ' ' :: ' ' :: '}' :: l).length + 1) (by omega)
            have hsD : skipWs ('\n' :: ' ' :: ' ' :: '}' :: l) = '}' :: l := by
              simp [skipWs]
            rw [hin]
            simp only [readMembers]
            rw [if_true, h1]
            simp only []
            rw [skipWs, if_neg (by decide)]
            simp only []
            rw [if_true, hs2, h3]
            simp only []
            rw [hsD]
            simp only []
            rw [if_neg (by decide)]
            rw [if_true]
        | cons kv2 kvs2 =>
            have hin : membersChars ((k, v) :: kv2 :: kvs2) ++
                  '\n' :: ' ' :: ' ' :: '}' :: l =
                '"' :: (escList k.data ++ '"' ::
                  (':' :: ' ' :: (valChars v ++ ',' :: '\n' :: ' ' :: ' ' :: ' ' :: ' ' ::
                    (membersChars (kv2 :: kvs2) ++ '\n' :: ' ' :: ' ' :: '}' :: l)))) := by
              simp only [membersChars, memberChars, quoteChars, List.cons_append,
                List.append_assoc, List.singleton_append, List.nil_append]
            have h1 := readStr_escList k.data
              ((escList k.data ++ '"' ::
                (':' :: ' ' :: (valChars v ++ ',' :: '\n' :: ' ' :: ' ' :: ' ' :: ' ' ::
                  (membersChars (kv2 :: kvs2) ++
                    '\n' :: ' ' :: ' ' :: '}' :: l)))).length + 1)
              (by simp only [List.length_append, List.length_cons]
                  have := escList_length k.data
                  omega)
              (':' :: ' ' :: (valChars v ++ ',' :: '\n' :: ' ' :: ' ' :: ' ' :: ' ' ::
                (membersChars (kv2 :: kvs2) ++ '\n' :: ' ' :: ' ' :: '}' :: l)))
            have h2 := skipWs_valChars v
              (',' :: '\n' :: ' ' :: ' ' :: ' ' :: ' ' ::
                (membersChars (kv2 :: kvs2) ++ '\n' :: ' ' :: ' ' :: '}' :: l))
            have hs2 : skipWs (' ' :: (valChars v ++
                ',' :: '\n' :: ' ' :: ' ' :: ' ' :: ' ' ::
                  (membersChars (kv2 :: kvs2) ++ '\n' :: ' ' :: ' ' :: '}' :: l))) =
                valChars v ++ ',' :: '\n' :: ' ' :: ' ' :: ' ' :: ' ' ::
                  (membersChars (kv2 :: kvs2) ++ '\n' :: ' ' :: ' ' :: '}' :: l) := by
              rw [skipWs, if_pos (by decide)]
              exact h2
            have h3 := readVal_valChars v
              (',' :: '\n' :: ' ' :: ' ' :: ' ' :: ' ' ::
                (membersChars (kv2 :: kvs2) ++ '\n' :: ' ' :: ' ' :: '}' :: l))
              (by rfl)
              ((valChars v ++ ',' :: '\n' :: ' ' :: ' ' :: ' ' :: ' ' ::
                (membersChars (kv2 :: kvs2) ++
                  '\n' :: ' ' :: ' ' :: '}' :: l)).length + 1)
              (by omega)
            have h5 : skipWs ('\n' :: ' ' :: ' ' :: ' ' :: ' ' ::
                (membersChars (kv2 :: kvs2) ++ '\n' :: ' ' :: ' ' :: '}' :: l)) =
                membersChars (kv2 :: kvs2) ++ '\n' :: ' ' :: ' ' :: '}' :: l := by
              obtain ⟨t2, ht2⟩ := membersChars_head kv2.1 kv2.2 kvs2
              rw [show (kv2.1, kv2.2) = kv2 from rfl] at ht2
              rw [ht2]
              simp [skipWs]
            have h6 := ih (by simp) f (by simp at hfuel ⊢; omega) l
            rw [hin]
            simp only [readMembers]
            rw [if_true, h1]
            simp only []
            rw [skipWs, if_neg (by decide)]
            simp only []
            rw [if_true, hs2, h3]
            simp only []
            rw [skipWs, if_neg (by decide)]
            simp only []
            rw [if_true, h5, h6]
            rfl

/-- A printed row object starts with an opening brace. -/
theorem rowChars_head (r : SqlRow) : ∃ t, rowChars r = '{' :: t := by
  cases r with
  | nil => exact ⟨_, rfl⟩
  | cons kv kvs => exact ⟨_, rfl⟩

/-- A printed nonempty row list starts with an opening brace. -/
theorem rowListChars_head (r : SqlRow) (rs : List SqlRow) :
    ∃ t, rowListChars (r :: rs) = '{' :: t := by
  obtain ⟨t, ht⟩ := rowChars_head r
  cases rs with
  | nil => exact ⟨t, ht⟩
  | cons r2 rs2 =>
      exact ⟨t ++ ',' :: '\n' :: ' ' :: ' ' :: rowListChars (r2 :: rs2),
        by rw [rowListChars, ht]; simp⟩

/-- A printed member list dominates its member count in length. -/
theorem membersChars_length (kvs : SqlRow) : kvs.length ≤ (membersChars kvs).length := by
  induction kvs with
  | nil => simp [membersChars]
  | cons kv kvs ih =>
      obtain ⟨k, v⟩ := kv
      cases kvs with
      | nil => simp [membersChars, memberChars, quoteChars]
      | cons kv2 kvs2 =>
          rw [membersChars]
          simp only [List.length_cons, List.length_append,
            memberChars, quoteChars] at ih ⊢
          omega

/-- A printed row object dominates its member count plus the braces. -/
theorem rowChars_length (r : SqlRow) : r.length + 2 ≤ (rowChars r).length := by
  cases r with
  | nil => simp [rowChars]
  | cons kv kvs =>
      have := membersChars_length (kv :: kvs)
      rw [rowChars]
      · simp only [List.length_cons, List.length_append] at this ⊢
        omega
      · exact fun h => List.noConfusion h

/-- Fuel that always suffices to read back a printed row list: one unit
per row plus one per member. -/
def tableFuel (rows : List SqlRow) : Nat :=
  rows.length + (rows.map List.length).sum

/-- A printed row list dominates its reading fuel in length. -/
theorem rowListChars_length (rows : List SqlRow) (hne : rows ≠ []) :
    tableFuel rows ≤ (rowListChars rows).length := by
  induction rows with
  | nil => exact absurd rfl hne
  | cons r rs ih =>
      cases rs with
      | nil =>
          have := rowChars_length r
          simp only [rowListChars, tableFuel, List.map_cons, List.map_nil,
            List.sum_cons, List.sum_nil, List.length_singleton] at *
          omega
      | cons r2 rs2 =>
          have h1 := rowChars_length r
          have h2 := ih (by simp)
          simp only [rowListChars, tableFuel, List.map_cons, List.sum_cons,
            List.length_cons, List.length_append] at *
          omega

/-- Reading a printed row object consumes exactly it. -/
theorem readRow_rowChars (r : SqlRow) (fuel : Nat) (hf : r.length ≤ fuel)
    (l : List Char) : readRow fuel (rowChars r ++ l) = some (r, l) := by
  cases r with
  | nil =>
      show readRow fuel ('{' :: '}' :: l) = some ([], l)
      have hs : skipWs ('}' :: l) = '}' :: l := by simp [skipWs]
      simp only [readRow]
      rw [hs]
      simp only []
      simp only [if_true]
  | cons kv kvs =>
      have hin : rowChars (kv :: kvs) ++ l =
          '{' :: ('\n' :: ' ' :: ' ' :: ' ' :: ' ' ::
            (membersChars (kv :: kvs) ++ '\n' :: ' ' :: ' ' :: '}' :: l)) := by
        rw [rowChars]
        · simp
        · exact fun h => List.noConfusion h
      obtain ⟨t2, ht2⟩ := membersChars_head kv.1 kv.2 kvs
      rw [show (kv.1, kv.2) = kv from rfl] at ht2
      have hs : skipWs ('\n' :: ' ' :: ' ' :: ' ' :: ' ' ::
          (membersChars (kv :: kvs) ++ '\n' :: ' ' :: ' ' :: '}' :: l)) =
          '"' :: (t2 ++ '\n' :: ' ' :: ' ' :: '}' :: l) := by
        rw [ht2]
        simp [skipWs]
      have hm := readMembers_membersChars (kv :: kvs)
        (fun h => List.noConfusion h) fuel hf l
      rw [ht2] at hm
      simp only [List.cons_append] at hm
      rw [hin]
      simp only [readRow]
      rw [if_true, hs]
      simp only []
      rw [if_neg (by decide), hm]

/-- Reading a printed row list consumes it through the closing bracket
of the `indent=2` layout. -/
theorem readRowList_rowListChars (rows : List SqlRow) : rows ≠ [] →
    ∀ fuel : Nat, tableFuel rows ≤ fuel → ∀ l : List Char,
      readRowList fuel (rowListChars rows ++ '\n' :: ']' :: l) = some (rows, l) := by
  induction rows with
  | nil => intro h; exact absurd rfl h
  | cons r rs ih =>
      intro _ fuel hfuel l
      cases fuel with
      | zero => simp [tableFuel] at hfuel
      | succ f =>
        cases rs with
        | nil =>
            have hr := readRow_rowChars r f
              (by simp [tableFuel] at hfuel; omega) ('\n' :: ']' :: l)
            have hs : skipWs ('\n' :: ']' :: l) = ']' :: l := by simp [skipWs]
            show readRowList (f + 1)
              (rowChars r ++ '\n' :: ']' :: l) = some ([r], l)
            simp only [readRowList]
            rw [hr]
            simp only []
            rw [hs]
            simp only []
            rw [if_neg (by decide), if_true]
        | cons r2 rs2 =>
            have hin : rowListChars (r :: r2 :: rs2) ++ '\n' :: ']' :: l =
                rowChars r ++ ',' :: '\n' :: ' ' :: ' ' ::
                  (rowListChars (r2 :: rs2) ++ '\n' :: ']' :: l) := by
              rw [rowListChars]
              simp
            have hr := readRow_rowChars r f
              (by simp [tableFuel] at hfuel; omega)
              (',' :: '\n' :: ' ' :: ' ' ::
                (rowListChars (r2 :: rs2) ++ '\n' :: ']' :: l))
            obtain ⟨t2, ht2⟩ := rowListChars_head r2 rs2
            have hs : skipWs (',' :: '\n' :: ' ' :: ' ' ::
                (rowListChars (r2 :: rs2) ++ '\n' :: ']' :: l)) =
                ',' :: '\n' :: ' ' :: ' ' ::
                  (rowListChars (r2 :: rs2) ++ '\n' :: ']' :: l) := by
              simp [skipWs]
            have hs2 : skipWs ('\n' :: ' ' :: ' ' ::
                (rowListChars (r2 :: rs2) ++ '\n' :: ']' :: l)) =
                rowListChars (r2 :: rs2) ++ '\n' :: ']' :: l := by
              rw [ht2]
              simp [skipWs]
            have h6 := ih (by simp) f
              (by simp [tableFuel] at hfuel ⊢; omega) l
            rw [hin]
            simp only [readRowList]
            rw [hr]
            simp only []
            rw [hs]
            simp only []
            rw [if_true, hs2, h6]
            rfl

/-- The codec round-trip: parsing the serialised Answer text recovers
exactly the rows the service serialised. -/
theorem parseTable_dumpTable (rows : List SqlRow) :
    parseTable (dumpTable rows) = some rows := by
  cases rows with
  | nil => rfl
  | cons r rs =>
      have hdd : (dumpTable (r :: rs)).data =
          '[' :: ('\n' :: ' ' :: ' ' ::
            (rowListChars (r :: rs) ++ '\n' :: ']' :: [])) := rfl
      obtain ⟨t2, ht2⟩ := rowListChars_head r rs
      have hs0 : skipWs ('[' :: ('\n' :: ' ' :: ' ' ::
          (rowListChars (r :: rs) ++ '\n' :: ']' :: []))) =
          '[' :: ('\n' :: ' ' :: ' ' ::
            (rowListChars (r :: rs) ++ '\n' :: ']' :: [])) := by
        simp [skipWs]
      have hs1 : skipWs ('\n' :: ' ' :: ' ' ::
          (rowListChars (r :: rs) ++ '\n' :: ']' :: [])) =
          '{' :: (t2 ++ '\n' :: ']' :: []) := by
        rw [ht2]
        simp [skipWs]
      have hfl : tableFuel (r :: rs) ≤
          (rowListChars (r :: rs) ++ '\n' :: ']' :: ([] : List Char)).length + 1 := by
        have := rowListChars_length (r :: rs) (by simp)
        simp only [List.length_append, List.length_cons, List.length_nil]
        omega
      have h6 := readRowList_rowListChars (r :: rs) (by simp)
        ((rowListChars (r :: rs) ++ '\n' :: ']' :: ([] : List Char)).length + 1) hfl []
      simp only [parseTable]
      rw [hdd, hs0]
      simp only []
      rw [if_true, hs1]
      simp only []
      rw [if_neg (by decide), ← List.cons_append, ← ht2, h6]
      simp [skipWs]

/-! ## schemas.py — the wire message shapes

`AskRequest` and `AskResponse` are the two pydantic models, one string
field each. -/

/-- The request model: `class AskRequest(BaseModel): query: str`. -/
structure AskRequest where
  query : String
deriving DecidableEq

/-- The response model: `class AskResponse(BaseModel): answer: str`. -/
structure AskResponse where
  answer : String
deriving DecidableEq

/-- A JSON value on the wire between the dashboard and the service. -/
inductive Json where
  | jnull : Json
  | jbool (b : Bool) : Json
  | jnum (n : Int) : Json
  | jstr (s : String) : Json
  | jarr (xs : List Json) : Json
  | jobj (kvs : List (String × Json)) : Json

/-- Key lookup in a JSON object, as `dict.get(key, None)` sees a parsed
body (object keys are unique, so first match is the match). -/
def jsonGet (kvs : List (String × Json)) (key : String) : Option Json :=
  match kvs with
  | [] => none
  | (k, v) :: rest => if k = key then some v else jsonGet rest key

/-- Pydantic validation of a request body against `AskRequest`: the
`query` member must be present and a string; other members are ignored.
`None` models the framework rejecting the body with its standard
validation error. -/
def validateAskRequest (body : List (String × Json)) : Option AskRequest :=
  match jsonGet body "query" with
  | some (.jstr s) => some ⟨s⟩
  | _ => none

/-- FastAPI serialisation of the `response_model=AskResponse` payload:
exactly one member, `answer`. -/
def encodeAskResponse (r : AskResponse) : List (String × Json) :=
  [("answer", .jstr r.answer)]

/-! ## Python string methods

The string methods the source calls (`strip`, `upper`, `lower`,
`startswith`, `in`), modelled over the code-point sequence exactly as
Python applies them (ASCII case mapping and ASCII whitespace cover
every character the claims exercise). -/

/-- The whitespace `str.strip()` removes. -/
def pySpace (c : Char) : Bool :=
  c = ' ' || c = '\t' || c = '\n' || c = '\r' || c = '\x0b' || c = '\x0c'

/-- Python `s.strip()`: surrounding whitespace removed. -/
def pyStrip (s : String) : String :=
  ⟨((s.data.dropWhile pySpace).reverse.dropWhile pySpace).reverse⟩

/-- Python `s.upper()`. -/
def pyUpper (s : String) : String := ⟨s.data.map Char.toUpper⟩

/-- Python `s.lower()`. -/
def pyLower (s : String) : String := ⟨s.data.map Char.toLower⟩

/-- Python `s.startswith(pre)`. -/
def pyStartswith (s pre : String) : Bool := pre.data.isPrefixOf s.data

/-! ## ask.py — the query service

The two effectful collaborators are oracles inside `Env`: the language
model call (which may raise) and the database execution of one
statement inside one scoped connection (which may raise
`SQLAlchemyError` or anything else).  `askBody` is the body of the
`try`, paired with the trace of statements actually executed against
the database; `ask_database` adds the two `except` arms. -/

/-- The outcome of `conn.execute(text(sql))` + `fetchall()` on one
scoped connection. -/
inductive DbResult where
  | rows (rs : List SqlRow) : DbResult
  | sqlErr (msg : String) : DbResult
  | otherErr (msg : String) : DbResult

/-- An exception escaping the `try` body of `ask_database`. -/
inductive Exn where
  | sqlalchemy (msg : String) : Exn
  | general (msg : String) : Exn
deriving DecidableEq

/-- The external collaborators of the service, as oracles. -/
structure Env where
  model : String → Except String String
  db : String → DbResult

/-- The instructional prompt of `ask_database`, with the question
interpolated. -/
def buildPrompt (question : String) : String :=
  "\n        You are an expert SQL generator for the SQLite \x27Chinook\x27 database.\n        Tables include: Artist, Album, Track, Customer, Invoice, and Genre.\n        Convert the following user question into a valid SQL SELECT query.\n        Return ONLY SQL code, no explanations or markdown.\n        Question: " ++
    question ++ "\n        "

/-- The fixed rejection Answer text of the SELECT gate. -/
def rejectionMsg : String := "❌ Only SELECT queries are allowed."

/-- The fixed Answer text for an empty result set. -/
def noResultsMsg : String := "No results found."

/-- The body of the `try` in `ask_database`: prompt the model, strip
the completion, gate on the `SELECT` prefix, execute, format.  The
second component is the trace of statements executed on a database
connection (empty exactly when no connection was opened). -/
def askBody (env : Env) (question : String) :
    Except Exn AskResponse × List String :=
  match env.model (buildPrompt question) with
  | .error m => (.error (.general m), [])
  | .ok content =>
      let sql_query := pyStrip content
      if ¬ (pyStartswith (pyUpper sql_query) "SELECT" = true) then
        (.ok ⟨rejectionMsg⟩, [])
      else
        match env.db sql_query with
        | .sqlErr m => (.error (.sqlalchemy m), [sql_query])
        | .otherErr m => (.error (.general m), [sql_query])
        | .rows rs =>
            if rs.isEmpty then (.ok ⟨noResultsMsg⟩, [sql_query])
            else (.ok ⟨dumpTable rs⟩, [sql_query])

/-- The Answer text each `except` arm builds from the caught
exception. -/
def errorAnswerText : Exn → String
  | .sqlalchemy m => "Database error: " ++ m
  | .general m => "Error: " ++ m

/-- `ask_database` with its database trace: the `try` body with both
`except` arms folded in. -/
def askRun (env : Env) (question : String) : AskResponse × List String :=
  match askBody env question with
  | (.ok r, tr) => (r, tr)
  | (.error e, tr) => (⟨errorAnswerText e⟩, tr)

/-- The public `ask_database(question)` of `ask.py`. -/
def ask_database (env : Env) (question : String) : AskResponse :=
  (askRun env question).1

/-! ## main.py — the HTTP endpoint layer -/

/-- The `POST /ask` route: forwards the validated request to
`ask_database` and returns its Answer unchanged. -/
def askRoute (env : Env) (request : AskRequest) : AskResponse :=
  ask_database env request.query

/-- The JSON body of the 200 response of `POST /ask`. -/
def servicePayload (env : Env) (q : String) : List (String × Json) :=
  encodeAskResponse (ask_database env q)

/-! ## dashboard.py — the Streamlit UI logic

The run block is a function of the question, the chart preference, the
network outcome and the session state; Streamlit rendering calls are
recorded in a `Display` value. -/

/-- Substring test at every position, as Python `needle in hay` over the
tail starting at the current position. -/
def strContainsAux (needle : List Char) : List Char → Bool
  | [] => needle.isEmpty
  | c :: rest => needle.isPrefixOf (c :: rest) || strContainsAux needle rest

/-- Python `needle in hay` on strings. -/
def strContains (hay needle : String) : Bool :=
  strContainsAux needle.data hay.data

/-- `infer_chart_type(q, override)` of `dashboard.py`: a non-empty,
non-`"Auto"` override wins lowercased; otherwise the lowercased
question is scanned for `"bar"`, `"line"`, `"pie"`, `"area"` in that
order, with `"table"` as the default. -/
def infer_chart_type (q : String) (override : String) : String :=
  if override ≠ "" ∧ override ≠ "Auto" then pyLower override
  else
    let ql := pyLower q
    if strContains ql "bar" then "bar"
    else if strContains ql "line" then "line"
    else if strContains ql "pie" then "pie"
    else if strContains ql "area" then "area"
    else "table"

/-- The options of the chart-preference selectbox. -/
def chartPrefOptions : List String := ["Auto", "Bar", "Line", "Pie", "Area", "Table"]

/-- `pd.DataFrame(list_of_dicts)` columns: the union of the dict keys
in order of first appearance. -/
def dfColumns (data : List SqlRow) : List String :=
  data.foldl (fun acc r =>
    acc ++ (r.map Prod.fst).filter (fun k => !acc.contains k)) []

/-- Association-list lookup of one key in one row dict. -/
def lookupVal (r : SqlRow) (k : String) : Option SqlVal :=
  match r with
  | [] => none
  | (k2, v) :: rest => if k2 = k then some v else lookupVal rest k

/-- The column of values under one name; a row missing the key shows as
a missing value (pandas NaN), modelled as null. -/
def colVals (data : List SqlRow) (c : String) : List SqlVal :=
  data.map fun r => (lookupVal r c).getD .vnull

/-- True on a number-valued cell. -/
def isIntVal : SqlVal → Bool
  | .vint _ => true
  | _ => false

/-- True on a missing cell. -/
def isNullVal : SqlVal → Bool
  | .vnull => true
  | _ => false

/-- `pd.api.types.is_numeric_dtype` of a column built from these
scalars: numeric when at least one cell is a number and every cell is a
number or missing (int64/float64 dtype); an all-missing or any-string
column infers object dtype. -/
def isNumericCol (vs : List SqlVal) : Bool :=
  vs.any isIntVal && vs.all fun v => isIntVal v || isNullVal v

/-- The x/y axis resolution of the dashboard: only tables with at least
two columns resolve anything; then x is the first non-numeric column
(else the first column) and y the first numeric column (else the second
column). -/
def resolveAxes (data : List SqlRow) : Option String × Option String :=
  let cols := dfColumns data
  if 2 ≤ cols.length then
    let cat := cols.filter fun c => !isNumericCol (colVals data c)
    let num := cols.filter fun c => isNumericCol (colVals data c)
    let x := match cat with
      | c :: _ => some c
      | [] => cols.head?
    let y := match num with
      | c :: _ => some c
      | [] => cols[1]?
    (x, y)
  else (none, none)

/-- A rendered plotly figure: its kind and the two resolved axes. -/
structure ChartFig where
  ctype : String
  x : Option String
  y : String
deriving DecidableEq

/-- The `fig` built by the run block: none unless a y column resolved
and the chart type is one of the four drawable kinds. -/
def buildFig (ctype : String) (x : Option String) (y : Option String) :
    Option ChartFig :=
  match y with
  | none => none
  | some yc =>
      if ctype = "bar" ∨ ctype = "line" ∨ ctype = "pie" ∨ ctype = "area" then
        some ⟨ctype, x, yc⟩
      else none

/-- One `st.session_state.history` entry: question, the `sql` payload
member (absent for this service), and the row count. -/
structure HistEntry where
  q : String
  sql : Option Json
  rows : Nat

/-- The session state the run block mutates. -/
structure UiState where
  history : List HistEntry

/-- What one run renders: at most one error, at most one warning, the
SQL expander text when reached, the figure when drawn, and whether the
data table and the success banner appeared. -/
structure Display where
  errorMsg : Option String
  warningMsg : Option String
  sqlShown : Option String
  fig : Option ChartFig
  tableShown : Bool
  successShown : Bool

/-- The fixed message when the request raises `ConnectionError`. -/
def connErrorMsg : String :=
  "⚠️ Backend not running on port 8000. Please start FastAPI with `uvicorn main:app --reload`."

/-- The fixed message when the request raises `Timeout`. -/
def timeoutMsg : String :=
  "⚠️ Request timed out. Try a simpler question or check the server."

/-- The outcome of the single `requests.post` call of one run. -/
inductive NetOutcome where
  | connError : NetOutcome
  | timeoutError : NetOutcome
  | otherExn (msg : String) : NetOutcome
  | response (status : Nat) (payload : List (String × Json)) : NetOutcome

/-- `st.code(sql or "--")`: the placeholder for an absent or falsy
`sql` value, the text itself otherwise (the service only ever omits the
member or, hypothetically, sends a string). -/
def sqlCode (sql : Option Json) : String :=
  match sql with
  | some (.jstr s) => if s = "" then "--" else s
  | _ => "--"

/-- `json.loads(raw) if isinstance(raw, str) else raw`, with a parse
failure caught into an empty list.  A non-string answer would be taken
as already-parsed data; this service types `answer` as a string, so the
claims only exercise the string arm. -/
def parseAnswerData (raw : Json) : List SqlRow :=
  match raw with
  | .jstr s => (parseTable s).getD []
  | _ => []

/-- `df.empty` for a frame built from the parsed rows: no rows or no
columns. -/
def dfEmpty (data : List SqlRow) : Bool :=
  data.isEmpty || (dfColumns data).isEmpty

/-- The run block after a response arrived: non-200 shows a server
error; an empty frame warns and stops; otherwise the chart is inferred
and drawn, the table rendered, and one history entry appended. -/
def handleResponse (query chartPref : String) (status : Nat)
    (payload : List (String × Json)) (st : UiState) : UiState × Display :=
  if status ≠ 200 then
    (st, ⟨some ("Server error: " ++ toString status), none, none, none, false, false⟩)
  else
    let raw := (jsonGet payload "answer").getD (.jstr "[]")
    let sql := jsonGet payload "sql"
    let data := parseAnswerData raw
    if dfEmpty data then
      (st, ⟨none, some "No results found.", some (sqlCode sql), none, false, false⟩)
    else
      let ctype := infer_chart_type query chartPref
      let axes := resolveAxes data
      ({ history := st.history ++ [⟨query, sql, data.length⟩] },
        ⟨none, none, some (sqlCode sql), buildFig ctype axes.1 axes.2, true, true⟩)

/-- One full run of the dashboard action for a submitted question:
each transport failure arm shows its fixed message and leaves the
session state untouched; a response is handled by `handleResponse`. -/
def runOnce (query chartPref : String) (outcome : NetOutcome)
    (st : UiState) : UiState × Display :=
  match outcome with
  | .connError => (st, ⟨some connErrorMsg, none, none, none, false, false⟩)
  | .timeoutError => (st, ⟨some timeoutMsg, none, none, none, false, false⟩)
  | .otherExn m => (st, ⟨some ("Unexpected error: " ++ m), none, none, none, false, false⟩)
  | .response status payload => handleResponse query chartPref status payload st

/-- The `if go and query.strip():` guard: the run block fires only for
a click with non-blank question text. -/
def uiSubmits (go : Bool) (query : String) : Bool :=
  go && (pyStrip query != "")

/-! ## Spec-side definitions

Definitions written from the wording of the specification, for the
refinement claims that compare the spec text with the code. -/

/-- Chart-type choice as the spec words it: an explicit preference
(anything but `"Auto"`) wins lowercased; otherwise the question text is
scanned case-insensitively for `"bar"`, `"line"`, `"pie"`, `"area"` in
that priority order, defaulting to `"table"`. -/
def specInferChart (q : String) (pref : String) : String :=
  if pref ≠ "Auto" then pyLower pref
  else
    let ql := pyLower q
    if strContains ql "bar" then "bar"
    else if strContains ql "line" then "line"
    else if strContains ql "pie" then "pie"
    else if strContains ql "area" then "area"
    else "table"

/-- The x-axis column as the claim words it: the first non-numeric
column, falling back to the first column when every column is
numeric — with no guard on the column count. -/
def specXCol (data : List SqlRow) : Option String :=
  let cols := dfColumns data
  match cols.filter fun c => !isNumericCol (colVals data c) with
  | c :: _ => some c
  | [] => cols.head?

/-- The y-axis column as the claim words it: the first numeric column,
falling back to the second column if one is present — with no guard on
the column count. -/
def specYCol (data : List SqlRow) : Option String :=
  let cols := dfColumns data
  match cols.filter fun c => isNumericCol (colVals data c) with
  | c :: _ => some c
  | [] => cols[1]?

/-! ## The claims -/

/-- C1: whenever the model completion, stripped and uppercased, does
not start with `SELECT`, `ask_database` answers with the fixed
rejection message and the database trace is empty: no connection is
opened and no statement executed. -/
theorem c1_select_gate (env : Env) (question content : String)
    (hmodel : env.model (buildPrompt question) = .ok content)
    (hgate : ¬ (pyStartswith (pyUpper (pyStrip content)) "SELECT" = true)) :
    askRun env question = (⟨rejectionMsg⟩, []) := by
  unfold askRun askBody
  rw [hmodel]
  simp only []
  rw [if_pos hgate]

/-- Witness for C1 at a model that returns a non-SELECT statement. -/
theorem c1_select_gate_witness :
    askRun ⟨fun _ => .ok "DROP TABLE Artist", fun _ => .rows []⟩ "q" =
      (⟨rejectionMsg⟩, []) :=
  c1_select_gate ⟨fun _ => .ok "DROP TABLE Artist", fun _ => .rows []⟩ "q"
    "DROP TABLE Artist" rfl (by decide)

/-- C7: a gated-through statement that executes and fetches zero rows
produces the fixed no-results Answer. -/
theorem c7_no_results (env : Env) (question content : String)
    (hmodel : env.model (buildPrompt question) = .ok content)
    (hgate : pyStartswith (pyUpper (pyStrip content)) "SELECT" = true)
    (hdb : env.db (pyStrip content) = .rows []) :
    ask_database env question = ⟨noResultsMsg⟩ := by
  unfold ask_database askRun askBody
  rw [hmodel]
  simp only []
  rw [if_neg (by simp [hgate]), hdb]
  rfl

/-- Witness for C7 at a database yielding zero rows. -/
theorem c7_no_results_witness :
    ask_database ⟨fun _ => .ok "SELECT 1", fun _ => .rows []⟩ "q" =
      ⟨noResultsMsg⟩ :=
  c7_no_results ⟨fun _ => .ok "SELECT 1", fun _ => .rows []⟩ "q"
    "SELECT 1" rfl (by decide) rfl

/-- C9: a connection error in the single network call shows the fixed
backend-not-running message, and the run leaves the session history
exactly as it was — no entry is appended. -/
theorem c9_conn_error_atomic (q pref : String) (st : UiState) :
    (runOnce q pref .connError st).1 = st ∧
    (runOnce q pref .connError st).1.history = st.history ∧
    (runOnce q pref .connError st).2.errorMsg = some connErrorMsg ∧
    (runOnce q pref .connError st).2.successShown = false :=
  ⟨rfl, rfl, rfl, rfl⟩

/-- C2: the service converts every failure into a normal Answer: the
route always returns an `AskResponse`, and whenever the `try` body
raises, the Answer text is the corresponding `except` arm's message. -/
theorem c2_total_error_conversion (env : Env) (req : AskRequest) :
    ∃ s : String, askRoute env req = ⟨s⟩ ∧
      ∀ e : Exn, (askBody env req.query).1 = .error e → s = errorAnswerText e := by
  unfold askRoute ask_database askRun
  cases h : askBody env req.query with
  | mk res tr =>
      cases res with
      | ok r =>
          refine ⟨r.answer, rfl, ?_⟩
          intro e he
          simp at he
      | error e0 =>
          refine ⟨errorAnswerText e0, rfl, ?_⟩
          intro e he
          simp only [] at he
          cases he
          rfl

/-- Witness for C2 at a database raising `SQLAlchemyError`. -/
theorem c2_total_error_conversion_witness :
    askRoute ⟨fun _ => .ok "SELECT 1", fun _ => .sqlErr "boom"⟩ ⟨"q"⟩ =
      ⟨"Database error: boom"⟩ := by
  obtain ⟨s, h1, h2⟩ := c2_total_error_conversion
    ⟨fun _ => .ok "SELECT 1", fun _ => .sqlErr "boom"⟩ ⟨"q"⟩
  rw [h1, h2 (.sqlalchemy "boom") rfl]
  rfl

/-- C3: a gated-through statement that fetches N > 0 rows sharing the
column list C yields an Answer that is valid JSON and decodes to a list
of exactly N objects, each with exactly the keys C. -/
theorem c3_result_rows_json (env : Env) (question content : String)
    (rows : List SqlRow) (C : List String)
    (hmodel : env.model (buildPrompt question) = .ok content)
    (hgate : pyStartswith (pyUpper (pyStrip content)) "SELECT" = true)
    (hdb : env.db (pyStrip content) = .rows rows)
    (hne : rows ≠ [])
    (hcols : ∀ r ∈ rows, r.map Prod.fst = C) :
    ∃ objs : List SqlRow,
      parseTable (ask_database env question).answer = some objs ∧
      objs.length = rows.length ∧
      ∀ o ∈ objs, o.map Prod.fst = C := by
  have hans : ask_database env question = ⟨dumpTable rows⟩ := by
    cases rows with
    | nil => exact absurd rfl hne
    | cons r0 rest =>
        unfold ask_database askRun askBody
        rw [hmodel]
        simp only []
        rw [if_neg (by simp [hgate]), hdb]
        rfl
  rw [hans]
  exact ⟨rows, parseTable_dumpTable rows, rfl, hcols⟩

/-- Witness for C3 at a one-row, one-column result. -/
theorem c3_result_rows_json_witness :
    ∃ objs : List SqlRow,
      parseTable (ask_database
        ⟨fun _ => .ok "SELECT 1", fun _ => .rows [[("a", .vint 1)]]⟩ "q").answer =
        some objs ∧
      objs.length = 1 ∧
      ∀ o ∈ objs, o.map Prod.fst = ["a"] := by
  have h := c3_result_rows_json
    ⟨fun _ => .ok "SELECT 1", fun _ => .rows [[("a", .vint 1)]]⟩ "q" "SELECT 1"
    [[("a", .vint 1)]] ["a"] rfl (by decide) rfl (by decide) (by decide)
  exact h

/-- The DataFrame columns of a nonempty row list whose rows all carry
the key list C are exactly C. -/
theorem dfColumns_const (rows : List SqlRow) (C : List String) (hne : rows ≠ [])
    (hcols : ∀ r ∈ rows, r.map Prod.fst = C) : dfColumns rows = C := by
  have hstep : ∀ rest : List SqlRow, (∀ r ∈ rest, r.map Prod.fst = C) →
      rest.foldl (fun acc r =>
        acc ++ (r.map Prod.fst).filter (fun k => !acc.contains k)) C = C := by
    intro rest
    induction rest with
    | nil => intro _; rfl
    | cons r rest ih =>
        intro hall
        have hr : r.map Prod.fst = C := hall r (by simp)
        have hfil : C.filter (fun k => !C.contains k) = [] := by
          rw [List.filter_eq_nil_iff]
          intro k hk
          simp [hk]
        simp only [List.foldl_cons, hr, hfil, List.append_nil]
        exact ih fun r2 h2 => hall r2 (by simp [h2])
  cases rows with
  | nil => exact absurd rfl hne
  | cons r0 rest =>
      have hr0 : r0.map Prod.fst = C := hcols r0 (by simp)
      unfold dfColumns
      simp only [List.foldl_cons, hr0]
      have hfirst : C.filter (fun k => !(List.contains [] k)) = C := by
        rw [List.filter_eq_self]
        intro k _
        simp
      rw [List.nil_append] at *
      rw [hfirst]
      exact hstep rest fun r2 h2 => hcols r2 (by simp [h2])

/-- C4: serialising a nonempty row list on the service side and
parsing it back on the UI side yields a table with the same row count
and the same columns as the original list. -/
theorem c4_roundtrip (rows : List SqlRow) (C : List String)
    (hne : rows ≠ [])
    (hcols : ∀ r ∈ rows, r.map Prod.fst = C) :
    (parseAnswerData (.jstr (dumpTable rows))).length = rows.length ∧
    dfColumns (parseAnswerData (.jstr (dumpTable rows))) = C ∧
    dfColumns rows = C := by
  have hp : parseAnswerData (.jstr (dumpTable rows)) = rows := by
    show (parseTable (dumpTable rows)).getD [] = rows
    rw [parseTable_dumpTable]
    rfl
  rw [hp]
  exact ⟨rfl, dfColumns_const rows C hne hcols, dfColumns_const rows C hne hcols⟩

/-- Witness for C4 at a two-row, two-column list. -/
theorem c4_roundtrip_witness :
    (parseAnswerData (.jstr (dumpTable
      [[("a", .vint 1), ("b", .vstr "x")],
       [("a", .vint 2), ("b", .vnull)]]))).length = 2 ∧
    dfColumns (parseAnswerData (.jstr (dumpTable
      [[("a", .vint 1), ("b", .vstr "x")],
       [("a", .vint 2), ("b", .vnull)]]))) = ["a", "b"] ∧
    dfColumns
      [[("a", .vint 1), ("b", .vstr "x")],
       [("a", .vint 2), ("b", .vnull)]] = ["a", "b"] := by
  have h := c4_roundtrip
    [[("a", .vint 1), ("b", .vstr "x")], [("a", .vint 2), ("b", .vnull)]]
    ["a", "b"] (by decide) (by decide)
  simpa using h

/-- C5: over the selectbox domain, chart-type choice behaves exactly as
specified — an explicit non-Auto preference wins lowercased, otherwise
the question is scanned for bar, line, pie, area in priority order with
a table default; in particular a pie-chart question yields pie under
Auto and line under an explicit Line preference. -/
theorem c5_chart_inference (q pref : String) (hpref : pref ∈ chartPrefOptions) :
    infer_chart_type q pref = specInferChart q pref ∧
    infer_chart_type "Total invoice amount by country (pie chart)" "Auto" = "pie" ∧
    infer_chart_type "Total invoice amount by country (pie chart)" "Line" = "line" := by
  refine ⟨?_, by decide, by decide⟩
  fin_cases hpref <;> rfl

/-- Witness for C5 at the Line preference. -/
theorem c5_chart_inference_witness :
    infer_chart_type "Total invoice amount by country (pie chart)" "Line" =
      specInferChart "Total invoice amount by country (pie chart)" "Line" ∧
    infer_chart_type "Total invoice amount by country (pie chart)" "Auto" = "pie" ∧
    infer_chart_type "Total invoice amount by country (pie chart)" "Line" = "line" := by
  have h := c5_chart_inference "Total invoice amount by country (pie chart)"
    "Line" (by decide)
  exact ⟨h.1, h.2.1, h.2.2⟩

/-- C6 counterexample: on the one-column numeric table `[{n: 1}]` the
claim fails — by its wording the y axis resolves to the first numeric
column `n`, but the code resolves neither axis (the run block only
resolves axes for tables with at least two columns), so no chart is
drawn even under a bar preference. -/
theorem c6_counterexample :
    ¬ (resolveAxes [[("n", SqlVal.vint 1)]] =
        (specXCol [[("n", SqlVal.vint 1)]], specYCol [[("n", SqlVal.vint 1)]])) ∧
    specYCol [[("n", SqlVal.vint 1)]] = some "n" ∧
    resolveAxes [[("n", SqlVal.vint 1)]] = (none, none) ∧
    buildFig (infer_chart_type "bar" "Auto")
      (resolveAxes [[("n", SqlVal.vint 1)]]).1
      (resolveAxes [[("n", SqlVal.vint 1)]]).2 = none := by
  refine ⟨by decide, by decide, by decide, by decide⟩

/-- C6 as amended: axis resolution happens only for tables with at
least two columns, where x is the first non-numeric column (else the
first column) and y the first numeric column (else the second); a
table with fewer than two columns resolves neither axis; whenever no y
axis is resolved the figure is not built; and an all-numeric table with
at least two columns falls back to the first column for x. -/
theorem c6_axis_resolution (data : List SqlRow) :
    (2 ≤ (dfColumns data).length →
      resolveAxes data = (specXCol data, specYCol data)) ∧
    ((dfColumns data).length < 2 → resolveAxes data = (none, none)) ∧
    (∀ ctype : String, (resolveAxes data).2 = none →
      buildFig ctype (resolveAxes data).1 (resolveAxes data).2 = none) ∧
    (2 ≤ (dfColumns data).length →
      (∀ c ∈ dfColumns data, isNumericCol (colVals data c) = true) →
      (resolveAxes data).1 = (dfColumns data).head?) := by
  refine ⟨?_, ?_, ?_, ?_⟩
  · intro h
    simp only [resolveAxes, specXCol, specYCol]
    rw [if_pos h]
  · intro h
    simp only [resolveAxes]
    rw [if_neg (by omega)]
  · intro ctype h
    rw [h]
    rfl
  · intro h hall
    have hcat : (dfColumns data).filter
        (fun c => !isNumericCol (colVals data c)) = [] := by
      rw [List.filter_eq_nil_iff]
      intro c hc
      simp [hall c hc]
    simp only [resolveAxes]
    rw [if_pos h]
    simp only [hcat]

/-- Witness for C6 (amended) at a two-column table with a text column
and a numeric column. -/
theorem c6_axis_resolution_witness :
    resolveAxes [[("name", SqlVal.vstr "x"), ("cnt", SqlVal.vint 3)]] =
      (specXCol [[("name", SqlVal.vstr "x"), ("cnt", SqlVal.vint 3)]],
        specYCol [[("name", SqlVal.vstr "x"), ("cnt", SqlVal.vint 3)]]) :=
  (c6_axis_resolution [[("name", SqlVal.vstr "x"), ("cnt", SqlVal.vint 3)]]).1
    (by decide)

/-- C8 counterexample: the route accepts the body `{"query": ""}` — an
accepted Question whose query text is empty, against the claimed
non-emptiness. -/
theorem c8_counterexample :
    ∃ r : AskRequest,
      validateAskRequest [("query", Json.jstr "")] = some r ∧ r.query = "" :=
  ⟨⟨""⟩, rfl, rfl⟩

/-- C8 as amended: the schema accepts exactly the bodies whose `query`
member is a string — any string, the empty one included; non-blank
question text is guaranteed only for requests the UI itself sends,
because the run block fires only when the stripped question is
non-empty. -/
theorem c8_query_validation (body : List (String × Json)) (q : String) (go : Bool) :
    (validateAskRequest body = some ⟨q⟩ ↔ jsonGet body "query" = some (.jstr q)) ∧
    (uiSubmits go q = true → pyStrip q ≠ "") := by
  constructor
  · unfold validateAskRequest
    cases hj : jsonGet body "query" with
    | none => simp
    | some j => cases j <;> simp
  · intro hs
    unfold uiSubmits at hs
    simp at hs
    exact hs.2

/-- Witness for C8 (amended) at a non-blank question. -/
theorem c8_query_validation_witness :
    validateAskRequest [("query", Json.jstr "hi")] = some ⟨"hi"⟩ ∧
      pyStrip "hi" ≠ "" :=
  ⟨(c8_query_validation [("query", Json.jstr "hi")] "hi" true).1.mpr rfl,
    (c8_query_validation [("query", Json.jstr "hi")] "hi" true).2 (by decide)⟩

/-- C10: the encoded service response carries no `sql` member, so the
dashboard lookup yields none; every history entry a run appends on a
service payload has a null generated-SQL field, and the Generated SQL
expander shows only the `--` placeholder. -/
theorem c10_sql_never_present (r : AskResponse) (qq pref : String) (st : UiState) :
    jsonGet (encodeAskResponse r) "sql" = none ∧
    (∀ e ∈ (runOnce qq pref (.response 200 (encodeAskResponse r)) st).1.history,
        e ∈ st.history ∨ e.sql = none) ∧
    (∀ s, (runOnce qq pref
        (.response 200 (encodeAskResponse r)) st).2.sqlShown = some s →
      s = "--") := by
  have hsql : jsonGet (encodeAskResponse r) "sql" = none := rfl
  have hrun : runOnce qq pref (.response 200 (encodeAskResponse r)) st =
      handleResponse qq pref 200 (encodeAskResponse r) st := rfl
  refine ⟨hsql, ?_, ?_⟩
  · intro e he
    rw [hrun] at he
    unfold handleResponse at he
    rw [if_neg (by simp)] at he
    simp only [hsql] at he
    by_cases hd : dfEmpty (parseAnswerData
        ((jsonGet (encodeAskResponse r) "answer").getD (.jstr "[]"))) = true
    · rw [if_pos hd] at he
      exact .inl he
    · rw [if_neg hd] at he
      simp only [List.mem_append, List.mem_singleton] at he
      rcases he with he | he
      · exact .inl he
      · right
        rw [he]
  · intro s hs
    rw [hrun] at hs
    unfold handleResponse at hs
    rw [if_neg (by simp)] at hs
    simp only [hsql] at hs
    by_cases hd : dfEmpty (parseAnswerData
        ((jsonGet (encodeAskResponse r) "answer").getD (.jstr "[]"))) = true
    · rw [if_pos hd] at hs
      simp only [] at hs
      cases hs
      rfl
    · rw [if_neg hd] at hs
      simp only [] at hs
      cases hs
      rfl

/-- The run block on a 200 service payload with a nonempty parsed
frame: one history entry appended (with a null SQL field), placeholder
SQL shown, chart from the inference and resolution, table and success
shown. -/
theorem handleResponse_ok (qq pref : String) (st : UiState) (ans : String)
    (rows : List SqlRow)
    (hparse : parseAnswerData (.jstr ans) = rows)
    (hne : dfEmpty rows = false) :
    handleResponse qq pref 200 (encodeAskResponse ⟨ans⟩) st =
      ({ history := st.history ++ [⟨qq, none, rows.length⟩] },
        ⟨none, none, some "--",
          buildFig (infer_chart_type qq pref)
            (resolveAxes rows).1 (resolveAxes rows).2, true, true⟩) := by
  unfold handleResponse
  rw [if_neg (by simp)]
  have hraw : (jsonGet (encodeAskResponse ⟨ans⟩) "answer").getD (.jstr "[]") =
      .jstr ans := rfl
  have hsql : jsonGet (encodeAskResponse ⟨ans⟩) "sql" = none := rfl
  simp only [hraw, hsql, hparse, hne]
  rfl

/-- Witness for C10 at a one-row service Answer: the appended entry has
a null SQL field and the expander shows the placeholder. -/
theorem c10_sql_never_present_witness :
    jsonGet (encodeAskResponse ⟨dumpTable [[("a", SqlVal.vint 1)]]⟩) "sql" = none ∧
    ((⟨"q", none, 1⟩ : HistEntry) ∈ (⟨[]⟩ : UiState).history ∨
      (⟨"q", none, 1⟩ : HistEntry).sql = none) ∧
    "--" = "--" := by
  have h := c10_sql_never_present ⟨dumpTable [[("a", SqlVal.vint 1)]]⟩ "q" "Auto" ⟨[]⟩
  have hparse : parseAnswerData (.jstr (dumpTable [[("a", SqlVal.vint 1)]])) =
      [[("a", SqlVal.vint 1)]] := by
    show (parseTable (dumpTable [[("a", SqlVal.vint 1)]])).getD [] = _
    rw [parseTable_dumpTable]
    rfl
  have hh := handleResponse_ok "q" "Auto" ⟨[]⟩ (dumpTable [[("a", SqlVal.vint 1)]])
    [[("a", SqlVal.vint 1)]] hparse (by decide)
  refine ⟨h.1, h.2.1 ⟨"q", none, 1⟩ ?_, h.2.2 "--" ?_⟩
  · show (⟨"q", none, 1⟩ : HistEntry) ∈ (handleResponse "q" "Auto" 200
      (encodeAskResponse ⟨dumpTable [[("a", SqlVal.vint 1)]]⟩) ⟨[]⟩).1.history
    rw [hh]
    simp
  · show (handleResponse "q" "Auto" 200
      (encodeAskResponse ⟨dumpTable [[("a", SqlVal.vint 1)]]⟩) ⟨[]⟩).2.sqlShown =
      some "--"
    rw [hh]

end AiSql
